import Mathlib

/-!
# Shallow embedding of `reachability-monitor.py` (`SDMonitor.check_instances`)

This file embeds the per-instance reachability-check pipeline of the
SecureDrop reachability monitor:

* `InstanceRecord` models the Python instance dict (keys `organization`,
  `landing_page`, `ths_address`, and the optional result keys `version`,
  `intro_pts`, `intro_circs`, `rend_circs`; the spec calls the latter three
  `intro_points`, `intro_circuits`, `rend_circuits`).
* `parseVersion` models
  `search("Powered by SecureDrop [0-9.]+", response).group(0).split()[-1][:-1]`
  (leftmost match, greedy character class, whitespace split, drop last char).
* `circuitLoop` models the `for circuit in self.controller.get_circuits()`
  loop: snapshot HS_CLIENT_INTRO / HS_CLIENT_REND circuits, close every one.
* `checkOne` models one iteration of the `for instance in instances` loop,
  with the probe outcome and descriptor-fetch outcome supplied as oracles
  (the code distinguishes exactly: probe success body / caught proxy errors;
  descriptor payload / `stem.DescriptorUnavailable`).
* `checkInstances` models the whole loop including in-place mutation and
  exception propagation (an uncaught `AttributeError` from `.group(0)` when
  the pattern is absent aborts the run, leaving prior mutations intact).

Side effects visible to the operator or the tor controller are recorded as
an `Event` trace: descriptor fetch requests, `close_circuit` calls, and
`print(instance)` emissions.
-/

namespace SDRM

/-- A snapshot dict appended to `intro_circs`:
`dict(path=..., reason=..., remote_reason=...)`. -/
structure IntroCircEntry where
  path : List String
  reason : String
  remote_reason : String
deriving DecidableEq, Repr

/-- A snapshot dict appended to `rend_circs`:
`dict(path=..., state=..., reason=..., remote_reason=...)`. -/
structure RendCircEntry where
  path : List String
  hs_state : String
  reason : String
  remote_reason : String
deriving DecidableEq, Repr

/-- One instance dict. The three directory fields are always present;
the result fields are `Option`s, `none` meaning the key is absent. -/
structure InstanceRecord where
  organization : String
  landing_page : String
  ths_address : String
  version : Option String := none
  intro_pts : Option String := none
  intro_circs : Option (List IntroCircEntry) := none
  rend_circs : Option (List RendCircEntry) := none
deriving DecidableEq, Repr

/-- A live circuit as returned by `controller.get_circuits()`. -/
structure Circuit where
  cid : String
  purpose : String
  path : List String
  hs_state : String
  reason : String
  remote_reason : String
deriving DecidableEq, Repr

/-- Outcome of `opener.open("http://"+hs_url, timeout=timeout).read().decode()`:
either a decoded body, or one of the three exception classes that line 73-74
catches (`socks.SOCKS5Error`, `socks.GeneralProxyError`, `urllib.error.URLError`). -/
inductive ProbeResult where
  | success (body : String)
  | socks5Error
  | generalProxyError
  | urlError
deriving DecidableEq, Repr

/-- Outcome of `controller.get_hidden_service_descriptor(hs_url)`: either the
decoded `introduction_points_content`, or `stem.DescriptorUnavailable`
(the two outcomes the source distinguishes). -/
inductive DescResult where
  | success (introPointsContent : String)
  | descriptorUnavailable
deriving DecidableEq, Repr

/-- The oracle outcomes the external world supplies for one loop iteration. -/
structure Env where
  probe : ProbeResult
  desc : DescResult
  circuits : List Circuit
deriving Repr

/-- Observable side effects on the controller / the operator console. -/
inductive Event where
  | fetchDesc (addr : String)
  | closeCircuit (cid : String)
  | emit (r : InstanceRecord)
deriving DecidableEq, Repr

/-- The uncaught Python exception the pipeline can raise per instance:
`AttributeError` from `.group(0)` when `re.search` returned `None`. -/
inductive PyError where
  | attributeError
deriving DecidableEq, Repr

/-! ## Version parsing: `search("Powered by SecureDrop [0-9.]+", response)` -/

/-- A character matched by the class `[0-9.]`. -/
def isVerChar (c : Char) : Bool := c.isDigit || c = '.'

/-- The literal part of the regex pattern. -/
def litP : List Char := "Powered by SecureDrop ".data

/-- Greedy `[0-9.]+`-style run: the maximal prefix of version characters. -/
def takeVerRun : List Char → List Char
  | [] => []
  | c :: cs => if isVerChar c then c :: takeVerRun cs else []

/-- Drop the expected literal prefix, or fail. -/
def dropLit : List Char → List Char → Option (List Char)
  | [], s => some s
  | _ :: _, [] => none
  | l :: ls, c :: cs => if c = l then dropLit ls cs else none

/-- Try to match the pattern anchored at the start of `s`: the literal
followed by a nonempty greedy run of `[0-9.]` characters. -/
def matchAt (s : List Char) : Option (List Char) :=
  match dropLit litP s with
  | none => none
  | some rest =>
    let run := takeVerRun rest
    if run = [] then none else some (litP ++ run)

/-- `re.search`: leftmost position at which the pattern matches, greedy run
there. Returns the matched text (`.group(0)`). -/
def searchPattern : List Char → Option (List Char)
  | [] => none
  | c :: cs =>
    match matchAt (c :: cs) with
    | some m => some m
    | none => searchPattern cs

/-- Python `str.split()` with no argument: split on whitespace runs,
discarding empty fields. Auxiliary accumulator form. -/
def pySplitAux : List Char → List Char → List (List Char)
  | [], acc => if acc = [] then [] else [acc.reverse]
  | c :: cs, acc =>
    if c.isWhitespace then
      if acc = [] then pySplitAux cs [] else acc.reverse :: pySplitAux cs []
    else
      pySplitAux cs (c :: acc)

/-- Python `str.split()` with no argument. -/
def pySplit (s : List Char) : List (List Char) := pySplitAux s []

/-- `version_str.split()[-1][:-1]` as applied to the matched text:
last whitespace-separated token, minus its final character. -/
def lastTokenDropLast (m : List Char) : List Char :=
  ((pySplit m).getLastD []).dropLast

/-- The whole version extraction at line 70-72: `None` when `re.search`
finds no match (in which case `.group(0)` raises `AttributeError`). -/
def parseVersion (body : String) : Option String :=
  match searchPattern body.data with
  | none => none
  | some m => some (String.mk (lastTokenDropLast m))

/-! ## Circuit collection: lines 92-108 -/

/-- The dict appended for an `HS_CLIENT_INTRO` circuit (lines 97-99). -/
def introSnap (c : Circuit) : IntroCircEntry :=
  { path := c.path, reason := c.reason, remote_reason := c.remote_reason }

/-- The dict appended for an `HS_CLIENT_REND` circuit (lines 101-104). -/
def rendSnap (c : Circuit) : RendCircEntry :=
  { path := c.path, hs_state := c.hs_state, reason := c.reason,
    remote_reason := c.remote_reason }

/-- The `for circuit in self.controller.get_circuits()` loop: returns the
`intro_circs` list, the `rend_circs` list, and the trace of
`close_circuit` calls (one per enumerated circuit, issued right after the
circuit is snapshotted, if it was). -/
def circuitLoop : List Circuit → List IntroCircEntry × List RendCircEntry × List Event
  | [] => ([], [], [])
  | c :: rest =>
    let t := circuitLoop rest
    ((if c.purpose = "HS_CLIENT_INTRO" then [introSnap c] else []) ++ t.1,
     (if c.purpose = "HS_CLIENT_REND" then [rendSnap c] else []) ++ t.2.1,
     Event.closeCircuit c.cid :: t.2.2)

/-! ## One loop iteration of `check_instances` (lines 64-111) -/

/-- Lines 92-111 once control reaches circuit collection: set `intro_circs`
and `rend_circs`, close every circuit, and `print` the record when its
`version` ended up `"unreachable"`. -/
def finishCircuits (inst : InstanceRecord) (env : Env) (evs : List Event) :
    InstanceRecord × List Event × Option PyError :=
  let t := circuitLoop env.circuits
  let inst := { inst with intro_circs := some t.1, rend_circs := some t.2.1 }
  let evs := evs ++ t.2.2
  if inst.version = some "unreachable" then
    (inst, evs ++ [Event.emit inst], none)
  else
    (inst, evs, none)

/-- Lines 76-90: the descriptor-based diagnosis after a caught proxy error
(entered with `version` already set to `"unreachable"`). -/
def checkUnreachable (inst : InstanceRecord) (env : Env) :
    InstanceRecord × List Event × Option PyError :=
  let evs := [Event.fetchDesc inst.ths_address]
  match env.desc with
  | .success content =>
    finishCircuits { inst with intro_pts := some content } env evs
  | .descriptorUnavailable =>
    let inst := { inst with intro_pts := some "descriptor unavailable" }
    (inst, evs ++ [Event.emit inst], none)

/-- One iteration of the `for instance in instances` loop, lines 64-111.
Returns the instance dict as mutated by the iteration, the event trace, and
the uncaught exception if one escaped. -/
def checkOne (inst : InstanceRecord) (env : Env) :
    InstanceRecord × List Event × Option PyError :=
  match env.probe with
  | .success body =>
    match parseVersion body with
    | none => (inst, [], some .attributeError)
    | some v => finishCircuits { inst with version := some v } env []
  | .socks5Error =>
    checkUnreachable { inst with version := some "unreachable" } env
  | .generalProxyError =>
    checkUnreachable { inst with version := some "unreachable" } env
  | .urlError =>
    checkUnreachable { inst with version := some "unreachable" } env

/-- The whole `check_instances` loop over a list of instances paired with
their per-iteration oracle outcomes. The returned record list reflects the
in-place mutation the Python loop performs on the caller's list: when an
exception escapes iteration `k`, the records before `k` keep all the fields
the loop gave them, the failing record keeps whatever was set before the
raise, and the remaining records are untouched. -/
def checkInstances : List (InstanceRecord × Env) →
    List InstanceRecord × List Event × Option PyError
  | [] => ([], [], none)
  | (inst, env) :: rest =>
    match checkOne inst env with
    | (r, evs, some e) => (r :: rest.map Prod.fst, evs, some e)
    | (r, evs, none) =>
      let t := checkInstances rest
      (r :: t.1, evs ++ t.2.1, t.2.2)

/-! ## Helper lemmas about the version parser -/

/-- Every character produced by the greedy run is in the class `[0-9.]`. -/
theorem takeVerRun_mem : ∀ (s : List Char) (c : Char), c ∈ takeVerRun s → isVerChar c = true := by
  intro s
  induction s with
  | nil => intro c hc; simp [takeVerRun] at hc
  | cons a as ih =>
    intro c hc
    rw [takeVerRun] at hc
    by_cases ha : isVerChar a
    · rw [if_pos ha] at hc
      rcases List.mem_cons.mp hc with h | h
      · exact h ▸ ha
      · exact ih c h
    · rw [if_neg ha] at hc
      exact absurd hc (List.not_mem_nil c)

/-- Any text matched by the pattern is the literal followed by a nonempty
run of `[0-9.]` characters. -/
theorem matchAt_shape (s m : List Char) (h : matchAt s = some m) :
    ∃ r, m = litP ++ r ∧ r ≠ [] ∧ ∀ c ∈ r, isVerChar c = true := by
  unfold matchAt at h
  rcases hd : dropLit litP s with _ | rest
  · rw [hd] at h; exact absurd h (by simp)
  · rw [hd] at h
    simp only at h
    by_cases hrun : takeVerRun rest = []
    · rw [if_pos hrun] at h; exact absurd h (by simp)
    · rw [if_neg hrun] at h
      exact ⟨takeVerRun rest, (Option.some_injective _ h).symm, hrun,
        fun c hc => takeVerRun_mem rest c hc⟩

/-- `re.search` only ever returns matches of that shape. -/
theorem searchPattern_shape : ∀ (s m : List Char), searchPattern s = some m →
    ∃ r, m = litP ++ r ∧ r ≠ [] ∧ ∀ c ∈ r, isVerChar c = true := by
  intro s
  induction s with
  | nil => intro m h; simp [searchPattern] at h
  | cons a as ih =>
    intro m h
    rw [searchPattern] at h
    rcases hm : matchAt (a :: as) with _ | m'
    · rw [hm] at h; exact ih m h
    · rw [hm] at h
      simp only [Option.some_inj] at h
      exact h ▸ matchAt_shape (a :: as) m' hm

/-- A `[0-9.]` character is not whitespace. -/
theorem isVerChar_not_ws {c : Char} (h : isVerChar c = true) : c.isWhitespace = false := by
  by_contra hw
  rw [Bool.not_eq_false] at hw
  simp only [Char.isWhitespace, Bool.or_eq_true, decide_eq_true_eq] at hw
  obtain ((h1 | h1) | h1) | h1 := hw <;> subst h1 <;> exact absurd h (by decide)

/-- Splitting a whitespace-free string yields the string as its only word. -/
theorem pySplitAux_no_ws : ∀ (r acc : List Char), (∀ c ∈ r, c.isWhitespace = false) →
    pySplitAux r acc = if acc.reverse ++ r = [] then [] else [acc.reverse ++ r] := by
  intro r
  induction r with
  | nil =>
    intro acc _
    simp only [pySplitAux, List.append_nil]
    rcases acc with _ | ⟨a, as⟩
    · simp
    · simp
  | cons c cs ih =>
    intro acc hws
    have hc : c.isWhitespace = false := hws c (List.mem_cons_self c cs)
    simp only [pySplitAux, hc, Bool.false_eq_true, if_false]
    rw [ih (c :: acc) (fun x hx => hws x (List.mem_cons_of_mem c hx))]
    have hne : (c :: acc).reverse ++ cs ≠ [] := by simp
    have hne2 : acc.reverse ++ c :: cs ≠ [] := by simp
    rw [if_neg hne, if_neg hne2]
    simp

/-- Splitting the matched text: the literal contributes three words, then the
version run follows. -/
theorem pySplitAux_lit (r : List Char) :
    pySplitAux (litP ++ r) [] =
      "Powered".data :: "by".data :: "SecureDrop".data :: pySplitAux r [] := rfl

/-- `split()[-1][:-1]` on a matched text with whitespace-free nonempty run. -/
theorem lastTokenDropLast_lit (r : List Char) (hr : r ≠ [])
    (hws : ∀ c ∈ r, c.isWhitespace = false) :
    lastTokenDropLast (litP ++ r) = r.dropLast := by
  unfold lastTokenDropLast pySplit
  rw [pySplitAux_lit, pySplitAux_no_ws r [] hws]
  simp only [List.reverse_nil, List.nil_append]
  rw [if_neg hr]
  rfl

/-- Every character of a parsed version string is in the class `[0-9.]`
(the token is a contiguous slice of the greedy run). -/
theorem parseVersion_all_ver (body : String) (v : String)
    (h : parseVersion body = some v) : ∀ c ∈ v.data, isVerChar c = true := by
  unfold parseVersion at h
  rcases hs : searchPattern body.data with _ | m
  · rw [hs] at h; exact absurd h (by simp)
  · rw [hs] at h
    simp only [Option.some_inj] at h
    obtain ⟨r, hm, hr, hver⟩ := searchPattern_shape body.data m hs
    have hws : ∀ c ∈ r, c.isWhitespace = false := fun c hc => isVerChar_not_ws (hver c hc)
    intro c hc
    rw [← h] at hc
    simp only [String.data] at hc
    rw [hm, lastTokenDropLast_lit r hr hws] at hc
    exact hver c (List.mem_of_mem_dropLast hc)

/-- A parsed version string is never the sentinel `"unreachable"`. -/
theorem parseVersion_ne_unreachable (body : String) (v : String)
    (h : parseVersion body = some v) : v ≠ "unreachable" := by
  intro he
  subst he
  have := parseVersion_all_ver body "unreachable" h 'u' (by decide)
  exact absurd this (by decide)

/-- Matching anchored right at the start of the text: the literal is
consumed and the greedy run is taken from what follows. -/
theorem searchPattern_at_lit (x : List Char) (hx : takeVerRun x ≠ []) :
    searchPattern (litP ++ x) = some (litP ++ takeVerRun x) := by
  have hdrop : dropLit litP (litP ++ x) = some x := rfl
  have hmatch : matchAt (litP ++ x) = some (litP ++ takeVerRun x) := by
    unfold matchAt
    rw [hdrop]
    simp only [if_neg hx]
  have hcons : litP ++ x = 'P' :: ("owered by SecureDrop ".data ++ x) := rfl
  rw [hcons, searchPattern, ← hcons, hmatch]

/-- The greedy run over a run of `[0-9.]` characters followed by text that
does not start with one is exactly that run. -/
theorem takeVerRun_exact : ∀ (r rest : List Char), (∀ c ∈ r, isVerChar c = true) →
    (∀ c, rest.head? = some c → isVerChar c = false) →
    takeVerRun (r ++ rest) = r := by
  intro r
  induction r with
  | nil =>
    intro rest _ hrest
    rcases rest with _ | ⟨c, cs⟩
    · rfl
    · simp only [List.nil_append, takeVerRun]
      rw [if_neg]
      rw [hrest c rfl]
      simp
  | cons a as ih =>
    intro rest hver hrest
    have ha : isVerChar a = true := hver a (List.mem_cons_self a as)
    simp only [List.cons_append, takeVerRun, if_pos ha]
    exact congrArg (a :: ·) (ih rest (fun c hc => hver c (List.mem_cons_of_mem a hc)) hrest)

/-! ## Helper lemmas about the pipeline -/

/-- Circuit collection never touches `version`, `intro_pts`, or the three
directory fields; it always completes. -/
theorem finishCircuits_fields (inst : InstanceRecord) (env : Env) (evs : List Event) :
    (finishCircuits inst env evs).1.version = inst.version ∧
    (finishCircuits inst env evs).1.intro_pts = inst.intro_pts ∧
    (finishCircuits inst env evs).1.organization = inst.organization ∧
    (finishCircuits inst env evs).1.landing_page = inst.landing_page ∧
    (finishCircuits inst env evs).1.ths_address = inst.ths_address ∧
    (finishCircuits inst env evs).2.2 = none := by
  simp only [finishCircuits]
  split <;> simp

/-- Branch equation: probe success runs the parse-and-classify step. -/
theorem checkOne_probe_success (inst : InstanceRecord) (env : Env) (body : String)
    (hp : env.probe = .success body) :
    checkOne inst env =
      match parseVersion body with
      | none => (inst, [], some PyError.attributeError)
      | some v => finishCircuits { inst with version := some v } env [] := by
  unfold checkOne
  rw [hp]

/-- Branch equation: any of the three caught proxy errors runs the
unreachable-diagnosis step with `version` set to the sentinel. -/
theorem checkOne_probe_err (inst : InstanceRecord) (env : Env)
    (hp : env.probe = .socks5Error ∨ env.probe = .generalProxyError ∨
      env.probe = .urlError) :
    checkOne inst env =
      checkUnreachable { inst with version := some "unreachable" } env := by
  unfold checkOne
  rcases hp with hp | hp | hp <;> rw [hp]

/-- Branch equation: a fetched descriptor is decoded into `intro_pts` and
circuit collection follows. -/
theorem checkUnreachable_desc_success (inst : InstanceRecord) (env : Env)
    (content : String) (hd : env.desc = .success content) :
    checkUnreachable inst env =
      finishCircuits { inst with intro_pts := some content } env
        [Event.fetchDesc inst.ths_address] := by
  unfold checkUnreachable
  rw [hd]

/-- Branch equation: `DescriptorUnavailable` stores the sentinel, prints the
partial record, and short-circuits the iteration. -/
theorem checkUnreachable_desc_unavail (inst : InstanceRecord) (env : Env)
    (hd : env.desc = .descriptorUnavailable) :
    checkUnreachable inst env =
      ({ inst with intro_pts := some "descriptor unavailable" },
       [Event.fetchDesc inst.ths_address,
        Event.emit { inst with intro_pts := some "descriptor unavailable" }],
       none) := by
  unfold checkUnreachable
  rw [hd]
  rfl

/-- The descriptor-diagnosis branch leaves the three directory fields
unchanged and raises no exception. -/
theorem checkUnreachable_static (inst : InstanceRecord) (env : Env) :
    (checkUnreachable inst env).1.organization = inst.organization ∧
    (checkUnreachable inst env).1.landing_page = inst.landing_page ∧
    (checkUnreachable inst env).1.ths_address = inst.ths_address ∧
    (checkUnreachable inst env).1.version = inst.version ∧
    (checkUnreachable inst env).2.2 = none := by
  simp only [checkUnreachable]
  rcases env.desc with content | _
  · simp only
    have h := finishCircuits_fields { inst with intro_pts := some content } env
      [Event.fetchDesc inst.ths_address]
    exact ⟨h.2.2.1, h.2.2.2.1, h.2.2.2.2.1, h.1, h.2.2.2.2.2⟩
  · exact ⟨rfl, rfl, rfl, rfl, rfl⟩

/-- One loop iteration leaves the three directory fields unchanged. -/
theorem checkOne_static (inst : InstanceRecord) (env : Env) :
    (checkOne inst env).1.organization = inst.organization ∧
    (checkOne inst env).1.landing_page = inst.landing_page ∧
    (checkOne inst env).1.ths_address = inst.ths_address := by
  rcases hps : env.probe with body | _ | _ | _
  · rw [checkOne_probe_success inst env body hps]
    rcases hp : parseVersion body with _ | v
    · exact ⟨rfl, rfl, rfl⟩
    · have h := finishCircuits_fields { inst with version := some v } env []
      exact ⟨h.2.2.1, h.2.2.2.1, h.2.2.2.2.1⟩
  · rw [checkOne_probe_err inst env (Or.inl hps)]
    have h := checkUnreachable_static { inst with version := some "unreachable" } env
    exact ⟨h.1, h.2.1, h.2.2.1⟩
  · rw [checkOne_probe_err inst env (Or.inr (Or.inl hps))]
    have h := checkUnreachable_static { inst with version := some "unreachable" } env
    exact ⟨h.1, h.2.1, h.2.2.1⟩
  · rw [checkOne_probe_err inst env (Or.inr (Or.inr hps))]
    have h := checkUnreachable_static { inst with version := some "unreachable" } env
    exact ⟨h.1, h.2.1, h.2.2.1⟩

/-- A loop iteration that raises no exception always assigns `version`:
the sentinel `"unreachable"` on the caught proxy errors, a parsed token
(all of whose characters are digits or dots) on probe success. -/
theorem checkOne_version_set (inst : InstanceRecord) (env : Env)
    (hdone : (checkOne inst env).2.2 = none) :
    (checkOne inst env).1.version = some "unreachable" ∨
      ∃ s : String, (checkOne inst env).1.version = some s ∧
        ∀ c ∈ s.data, isVerChar c = true := by
  rcases hps : env.probe with body | _ | _ | _
  · rw [checkOne_probe_success inst env body hps] at hdone ⊢
    rcases hp : parseVersion body with _ | v
    · rw [hp] at hdone
      exact absurd hdone (by simp)
    · rw [hp] at hdone
      right
      exact ⟨v, (finishCircuits_fields { inst with version := some v } env []).1,
        parseVersion_all_ver body v hp⟩
  · rw [checkOne_probe_err inst env (Or.inl hps)]
    exact Or.inl (checkUnreachable_static { inst with version := some "unreachable" } env).2.2.2.1
  · rw [checkOne_probe_err inst env (Or.inr (Or.inl hps))]
    exact Or.inl (checkUnreachable_static { inst with version := some "unreachable" } env).2.2.2.1
  · rw [checkOne_probe_err inst env (Or.inr (Or.inr hps))]
    exact Or.inl (checkUnreachable_static { inst with version := some "unreachable" } env).2.2.2.1

/-- Branch equation: an uncaught exception in an iteration aborts the loop,
leaving the later instances untouched. -/
theorem checkInstances_cons_err (inst : InstanceRecord) (env : Env)
    (rest : List (InstanceRecord × Env)) (r : InstanceRecord) (evs : List Event)
    (e : PyError) (h : checkOne inst env = (r, evs, some e)) :
    checkInstances ((inst, env) :: rest) = (r :: rest.map Prod.fst, evs, some e) := by
  unfold checkInstances
  rw [h]

/-- Branch equation: a clean iteration prepends its record and events and the
loop moves on. -/
theorem checkInstances_cons_ok (inst : InstanceRecord) (env : Env)
    (rest : List (InstanceRecord × Env)) (r : InstanceRecord) (evs : List Event)
    (h : checkOne inst env = (r, evs, none)) :
    checkInstances ((inst, env) :: rest) =
      (r :: (checkInstances rest).1, evs ++ (checkInstances rest).2.1,
       (checkInstances rest).2.2) := by
  conv_lhs => rw [checkInstances]
  rw [h]

/-! ## Helper lemmas about circuit collection -/

/-- `intro_circs` collects exactly the `HS_CLIENT_INTRO` circuits, in order. -/
theorem circuitLoop_intro (cs : List Circuit) :
    (circuitLoop cs).1 =
      (cs.filter fun c => decide (c.purpose = "HS_CLIENT_INTRO")).map introSnap := by
  induction cs with
  | nil => rfl
  | cons c rest ih =>
    simp only [circuitLoop, List.filter_cons]
    by_cases hc : c.purpose = "HS_CLIENT_INTRO"
    · simp [hc, ih]
    · simp [hc, ih]

/-- `rend_circs` collects exactly the `HS_CLIENT_REND` circuits, in order. -/
theorem circuitLoop_rend (cs : List Circuit) :
    (circuitLoop cs).2.1 =
      (cs.filter fun c => decide (c.purpose = "HS_CLIENT_REND")).map rendSnap := by
  induction cs with
  | nil => rfl
  | cons c rest ih =>
    simp only [circuitLoop, List.filter_cons]
    by_cases hc : c.purpose = "HS_CLIENT_REND"
    · simp [hc, ih]
    · simp [hc, ih]

/-- Every enumerated circuit is closed, in enumeration order. -/
theorem circuitLoop_closes (cs : List Circuit) :
    (circuitLoop cs).2.2 = cs.map fun c => Event.closeCircuit c.cid := by
  induction cs with
  | nil => rfl
  | cons c rest ih =>
    simp only [circuitLoop, List.map_cons]
    rw [ih]

/-- No circuit is snapshotted twice: each enumerated circuit contributes at
most one entry across the two snapshot lists (its single `purpose` string
cannot equal both labels). -/
theorem circuitLoop_snap_bound (cs : List Circuit) :
    (circuitLoop cs).1.length + (circuitLoop cs).2.1.length ≤ cs.length := by
  induction cs with
  | nil => simp [circuitLoop]
  | cons c rest ih =>
    simp only [circuitLoop, List.length_append, List.length_cons]
    by_cases hi : c.purpose = "HS_CLIENT_INTRO" <;>
      by_cases hr : c.purpose = "HS_CLIENT_REND"
    · exact absurd (hi ▸ hr) (by decide)
    · simp only [if_pos hi, if_neg hr, List.length_cons, List.length_nil]
      omega
    · simp only [if_neg hi, if_pos hr, List.length_cons, List.length_nil]
      omega
    · simp only [if_neg hi, if_neg hr, List.length_nil]
      omega

/-- Circuit collection appends to the already-recorded event trace. -/
theorem finishCircuits_events (inst : InstanceRecord) (env : Env) (evs : List Event) :
    ∃ tail, (finishCircuits inst env evs).2.1 = evs ++ tail := by
  simp only [finishCircuits]
  split
  · exact ⟨_, List.append_assoc _ _ _⟩
  · exact ⟨_, rfl⟩

/-- For a clean iteration on a record with no `intro_pts` key, the final
record has `intro_pts` present exactly when it was classified unreachable. -/
theorem checkOne_intro_pts_iff (inst : InstanceRecord) (env : Env)
    (hfresh : inst.intro_pts = none)
    (hdone : (checkOne inst env).2.2 = none) :
    ((checkOne inst env).1.intro_pts.isSome ↔
      (checkOne inst env).1.version = some "unreachable") := by
  rcases hps : env.probe with body | _ | _ | _
  · rw [checkOne_probe_success inst env body hps] at hdone ⊢
    rcases hp : parseVersion body with _ | v
    · rw [hp] at hdone
      exact absurd hdone (by simp)
    · rw [hp] at hdone
      have hv := parseVersion_ne_unreachable body v hp
      have h1 := (finishCircuits_fields { inst with version := some v } env []).2.1
      have h2 := (finishCircuits_fields { inst with version := some v } env []).1
      rw [h1, h2]
      simp [hfresh, hv]
  all_goals
    first
    | rw [checkOne_probe_err inst env (Or.inl hps)]
    | rw [checkOne_probe_err inst env (Or.inr (Or.inl hps))]
    | rw [checkOne_probe_err inst env (Or.inr (Or.inr hps))]
  all_goals
    rcases hd : env.desc with content | _
  all_goals
    first
    | (rw [checkUnreachable_desc_success _ env content hd]
       have h1 := (finishCircuits_fields
         { inst with version := some "unreachable", intro_pts := some content } env
         [Event.fetchDesc inst.ths_address]).2.1
       have h2 := (finishCircuits_fields
         { inst with version := some "unreachable", intro_pts := some content } env
         [Event.fetchDesc inst.ths_address]).1
       rw [h1, h2]
       simp)
    | (rw [checkUnreachable_desc_unavail _ env hd]
       simp)

/-! ## Concrete fixtures, used by the witnesses and counterexamples -/

/-- A directory entry as `read_directory` builds it: result keys absent. -/
def sampleInst : InstanceRecord :=
  { organization := "Example Org", landing_page := "https://example.org",
    ths_address := "sdexampleexample.onion" }

/-- A second directory entry. -/
def sampleInst2 : InstanceRecord :=
  { organization := "Second Org", landing_page := "https://second.example",
    ths_address := "sdsecondsecondsd.onion" }

/-- A third directory entry. -/
def sampleInst3 : InstanceRecord :=
  { organization := "Third Org", landing_page := "https://third.example",
    ths_address := "sdthirdthirdthrd.onion" }

/-- A live circuit with the client-introduction purpose. -/
def sampleCircIntro : Circuit :=
  { cid := "10", purpose := "HS_CLIENT_INTRO", path := ["relayA", "relayB"],
    hs_state := "HSCI_CONNECTING", reason := "FINISHED", remote_reason := "NONE" }

/-- A live circuit with the client-rendezvous purpose. -/
def sampleCircRend : Circuit :=
  { cid := "11", purpose := "HS_CLIENT_REND", path := ["relayC"],
    hs_state := "HSCR_JOINED", reason := "FINISHED", remote_reason := "DONE" }

/-- A live circuit with some other purpose. -/
def sampleCircGeneral : Circuit :=
  { cid := "12", purpose := "GENERAL", path := ["relayD"],
    hs_state := "", reason := "DONE", remote_reason := "NONE" }

/-- Probe refused at the proxy; descriptor fetch then fails as unavailable. -/
def envDescUnavail : Env :=
  { probe := .urlError, desc := .descriptorUnavailable, circuits := [] }

/-- Probe succeeds with a body whose matched token has a single character. -/
def envEmptyVersion : Env :=
  { probe := .success "Powered by SecureDrop 7 x",
    desc := .descriptorUnavailable, circuits := [] }

/-- SOCKS5 failure on probe; descriptor fetch succeeds. -/
def envProxyOk : Env :=
  { probe := .socks5Error, desc := .success "intro points payload",
    circuits := [sampleCircIntro] }

/-- Probe succeeds; the greedy character class runs past the period. -/
def envGreedy : Env :=
  { probe := .success "Powered by SecureDrop 2.5.0.5",
    desc := .descriptorUnavailable, circuits := [] }

/-- Probe succeeds with the canonical footer. -/
def envExact : Env :=
  { probe := .success "Powered by SecureDrop 2.5.0.",
    desc := .descriptorUnavailable, circuits := [] }

/-- Probe succeeds but the body has no version pattern at all. -/
def envMalformed : Env :=
  { probe := .success "<html>It works!</html>",
    desc := .descriptorUnavailable, circuits := [] }

/-- A fully ordinary reachable instance with one rendezvous circuit live. -/
def envOk : Env :=
  { probe := .success "<footer>Powered by SecureDrop 2.5.0.</footer>",
    desc := .success "unused", circuits := [sampleCircRend] }

/-- Probe succeeds; the version run ends at a non-dot, non-digit character. -/
def envBang : Env :=
  { probe := .success "Powered by SecureDrop 2.5.0!",
    desc := .descriptorUnavailable, circuits := [] }

/-- The default record used by positional `getD` lookups. -/
def defaultInst : InstanceRecord :=
  { organization := "", landing_page := "", ths_address := "" }

/-- The default pair used by positional `getD` lookups. -/
def defaultPair : InstanceRecord × Env :=
  (defaultInst, { probe := .urlError, desc := .descriptorUnavailable, circuits := [] })

/-! ## Claims -/

/-- C1 counterexample: the claim "intro_points is present iff
version == "unreachable" and the descriptor fetch did not hit the
unavailable-descriptor condition" is false on the code. An instance whose
probe hits a proxy error and whose descriptor fetch raises
`DescriptorUnavailable` is processed to completion with
`intro_pts = "descriptor unavailable"` present, although the fetch did hit
the unavailable condition. -/
theorem C1_counterexample :
    (checkInstances [(sampleInst, envDescUnavail)]).2.2 = none ∧
    envDescUnavail.desc = DescResult.descriptorUnavailable ∧
    ¬ ((((checkInstances [(sampleInst, envDescUnavail)]).1.getD 0 defaultInst).intro_pts.isSome) ↔
        ((((checkInstances [(sampleInst, envDescUnavail)]).1.getD 0 defaultInst).version =
            some "unreachable") ∧
          envDescUnavail.desc ≠ DescResult.descriptorUnavailable)) := by
  decide

/-- C1 (amended): for every instance processed to completion by
`check_instances` from a fresh directory record, `intro_pts` is present if
and only if `version = "unreachable"`; on the unavailable-descriptor
condition it is present too, holding the sentinel. -/
theorem C1_intro_pts_iff (ps : List (InstanceRecord × Env))
    (hfresh : ∀ p ∈ ps, p.1.intro_pts = none)
    (hdone : (checkInstances ps).2.2 = none) :
    ∀ r ∈ (checkInstances ps).1,
      (r.intro_pts.isSome ↔ r.version = some "unreachable") := by
  induction ps with
  | nil =>
    intro r hr
    exact absurd hr (by simp [checkInstances])
  | cons p rest ih =>
    obtain ⟨inst, env⟩ := p
    rcases he : (checkOne inst env).2.2 with _ | e
    · have hck : checkOne inst env =
          ((checkOne inst env).1, (checkOne inst env).2.1, none) := by
        rw [← he]
      rw [checkInstances_cons_ok inst env rest _ _ hck] at hdone ⊢
      intro r hr
      rcases List.mem_cons.mp hr with h | h
      · subst h
        exact checkOne_intro_pts_iff inst env
          (hfresh (inst, env) (List.mem_cons_self _ _)) he
      · exact ih (fun q hq => hfresh q (List.mem_cons_of_mem _ hq)) hdone r h
    · have hck : checkOne inst env =
          ((checkOne inst env).1, (checkOne inst env).2.1, some e) := by
        rw [← he]
      rw [checkInstances_cons_err inst env rest _ _ _ hck] at hdone
      exact absurd hdone (by simp)

/-- C1 witness: a run over one fresh instance whose probe fails and whose
descriptor fetch succeeds, instantiating the amended invariant. -/
theorem C1_witness :
    (((checkInstances [(sampleInst, envProxyOk)]).1.getD 0 defaultInst).intro_pts.isSome ↔
      ((checkInstances [(sampleInst, envProxyOk)]).1.getD 0 defaultInst).version =
        some "unreachable") := by
  have h := C1_intro_pts_iff [(sampleInst, envProxyOk)] (by decide) (by decide)
  exact h _ (by decide)

/-- C2 counterexample: the claim that `version` is never empty is false on
the code. A probe body whose matched token has one character (here
"Powered by SecureDrop 7 x", token "7") completes the pipeline with
`version = some ""` after the trailing-character strip. -/
theorem C2_counterexample :
    (checkInstances [(sampleInst, envEmptyVersion)]).2.2 = none ∧
    ((checkInstances [(sampleInst, envEmptyVersion)]).1.getD 0 defaultInst).version =
      some "" := by
  decide

/-- C2 (amended): every instance record that completes the pipeline has its
`version` field set, and it equals either the sentinel `"unreachable"` or
the matched token minus its final character — a string of digits and dots
that may be empty or ill-formed. -/
theorem C2_version_present (ps : List (InstanceRecord × Env))
    (hdone : (checkInstances ps).2.2 = none) :
    ∀ r ∈ (checkInstances ps).1, ∃ s : String, r.version = some s ∧
      (s = "unreachable" ∨ ∀ c ∈ s.data, isVerChar c = true) := by
  induction ps with
  | nil =>
    intro r hr
    exact absurd hr (by simp [checkInstances])
  | cons p rest ih =>
    obtain ⟨inst, env⟩ := p
    rcases he : (checkOne inst env).2.2 with _ | e
    · have hck : checkOne inst env =
          ((checkOne inst env).1, (checkOne inst env).2.1, none) := by
        rw [← he]
      rw [checkInstances_cons_ok inst env rest _ _ hck] at hdone ⊢
      intro r hr
      rcases List.mem_cons.mp hr with h | h
      · subst h
        rcases checkOne_version_set inst env he with h1 | ⟨s, hs, hver⟩
        · exact ⟨"unreachable", h1, Or.inl rfl⟩
        · exact ⟨s, hs, Or.inr hver⟩
      · exact ih hdone r h
    · have hck : checkOne inst env =
          ((checkOne inst env).1, (checkOne inst env).2.1, some e) := by
        rw [← he]
      rw [checkInstances_cons_err inst env rest _ _ _ hck] at hdone
      exact absurd hdone (by simp)

/-- C2 witness: the amended claim instantiated on a completed
one-instance run. -/
theorem C2_witness :
    ∃ s : String,
      ((checkInstances [(sampleInst, envOk)]).1.getD 0 defaultInst).version = some s ∧
      (s = "unreachable" ∨ ∀ c ∈ s.data, isVerChar c = true) :=
  C2_version_present [(sampleInst, envOk)] (by decide) _ (by decide)

/-- C3: on a SOCKS negotiation error, a general proxy error, or a generic
network error during the probe, the checker sets `version = "unreachable"`,
performs the hidden-service descriptor fetch for the instance's service
address, raises no exception, and the loop proceeds to the remaining
instances. -/
theorem C3_proxy_error_unreachable (inst : InstanceRecord) (env : Env)
    (rest : List (InstanceRecord × Env))
    (hp : env.probe = .socks5Error ∨ env.probe = .generalProxyError ∨
      env.probe = .urlError) :
    (checkOne inst env).1.version = some "unreachable" ∧
    Event.fetchDesc inst.ths_address ∈ (checkOne inst env).2.1 ∧
    (checkOne inst env).2.2 = none ∧
    (checkInstances ((inst, env) :: rest)).1 =
      (checkOne inst env).1 :: (checkInstances rest).1 := by
  have hmain : (checkOne inst env).1.version = some "unreachable" ∧
      Event.fetchDesc inst.ths_address ∈ (checkOne inst env).2.1 ∧
      (checkOne inst env).2.2 = none := by
    rw [checkOne_probe_err inst env hp]
    rcases hd : env.desc with content | _
    · rw [checkUnreachable_desc_success _ env content hd]
      obtain ⟨tail, htail⟩ := finishCircuits_events
        { inst with version := some "unreachable", intro_pts := some content } env
        [Event.fetchDesc inst.ths_address]
      refine ⟨?_, ?_, ?_⟩
      · exact (finishCircuits_fields _ env _).1
      · rw [htail]
        exact List.mem_append_left tail (List.mem_cons_self _ _)
      · exact (finishCircuits_fields _ env _).2.2.2.2.2
    · rw [checkUnreachable_desc_unavail _ env hd]
      exact ⟨rfl, List.mem_cons_self _ _, rfl⟩
  refine ⟨hmain.1, hmain.2.1, hmain.2.2, ?_⟩
  have hck : checkOne inst env =
      ((checkOne inst env).1, (checkOne inst env).2.1, none) := by
    rw [← hmain.2.2]
  rw [checkInstances_cons_ok inst env rest _ _ hck]

/-- C3 witness: a SOCKS5 connection-refused probe on a concrete instance. -/
theorem C3_witness :
    (checkOne sampleInst envProxyOk).1.version = some "unreachable" ∧
    Event.fetchDesc sampleInst.ths_address ∈ (checkOne sampleInst envProxyOk).2.1 ∧
    (checkOne sampleInst envProxyOk).2.2 = none ∧
    (checkInstances [(sampleInst, envProxyOk)]).1 =
      (checkOne sampleInst envProxyOk).1 :: (checkInstances []).1 :=
  C3_proxy_error_unreachable sampleInst envProxyOk [] (Or.inl rfl)

/-- C4: when the descriptor fetch of an unreachable instance raises
`DescriptorUnavailable`, the checker stores the sentinel
`"descriptor unavailable"` in `intro_pts`, prints the partial record,
skips circuit collection (so `intro_circs`/`rend_circs` stay absent),
and raises nothing. -/
theorem C4_descriptor_unavailable (inst : InstanceRecord) (env : Env)
    (hfresh1 : inst.intro_circs = none) (hfresh2 : inst.rend_circs = none)
    (hp : env.probe = .socks5Error ∨ env.probe = .generalProxyError ∨
      env.probe = .urlError)
    (hd : env.desc = .descriptorUnavailable) :
    (checkOne inst env).1.intro_pts = some "descriptor unavailable" ∧
    Event.emit (checkOne inst env).1 ∈ (checkOne inst env).2.1 ∧
    (checkOne inst env).1.intro_circs = none ∧
    (checkOne inst env).1.rend_circs = none ∧
    (checkOne inst env).2.2 = none := by
  rw [checkOne_probe_err inst env hp, checkUnreachable_desc_unavail _ env hd]
  exact ⟨rfl, List.mem_cons_of_mem _ (List.mem_cons_self _ _), hfresh1, hfresh2, rfl⟩

/-- C4 witness: the concrete probe-refused, descriptor-unavailable case. -/
theorem C4_witness :
    (checkOne sampleInst envDescUnavail).1.intro_pts = some "descriptor unavailable" ∧
    Event.emit (checkOne sampleInst envDescUnavail).1 ∈
      (checkOne sampleInst envDescUnavail).2.1 ∧
    (checkOne sampleInst envDescUnavail).1.intro_circs = none ∧
    (checkOne sampleInst envDescUnavail).1.rend_circs = none ∧
    (checkOne sampleInst envDescUnavail).2.2 = none :=
  C4_descriptor_unavailable sampleInst envDescUnavail rfl rfl
    (Or.inr (Or.inr rfl)) rfl

/-- C5: circuit collection records exactly the `HS_CLIENT_INTRO` circuits
(path/reason/remote_reason) into `intro_circs` and exactly the
`HS_CLIENT_REND` circuits (path/state/reason/remote_reason) into
`rend_circs`, closes every enumerated circuit in the same pass, snapshots
no circuit twice, and on exactly one live circuit of each purpose it
records one entry in each sequence and closes both circuits. -/
theorem C5_circuit_collection (cs : List Circuit) :
    (circuitLoop cs).1 =
      (cs.filter fun c => decide (c.purpose = "HS_CLIENT_INTRO")).map introSnap ∧
    (circuitLoop cs).2.1 =
      (cs.filter fun c => decide (c.purpose = "HS_CLIENT_REND")).map rendSnap ∧
    (circuitLoop cs).2.2 = cs.map (fun c => Event.closeCircuit c.cid) ∧
    (circuitLoop cs).1.length + (circuitLoop cs).2.1.length ≤ cs.length ∧
    ∀ c1 c2 : Circuit, c1.purpose = "HS_CLIENT_INTRO" →
      c2.purpose = "HS_CLIENT_REND" →
      circuitLoop [c1, c2] = ([introSnap c1], [rendSnap c2],
        [Event.closeCircuit c1.cid, Event.closeCircuit c2.cid]) := by
  refine ⟨circuitLoop_intro cs, circuitLoop_rend cs, circuitLoop_closes cs,
    circuitLoop_snap_bound cs, ?_⟩
  intro c1 c2 h1 h2
  have n1 : ¬ c1.purpose = "HS_CLIENT_REND" := by rw [h1]; decide
  have n2 : ¬ c2.purpose = "HS_CLIENT_INTRO" := by rw [h2]; decide
  simp only [circuitLoop, if_pos h1, if_pos h2, if_neg n1, if_neg n2]
  rfl

/-- C5 witness: two concrete live circuits, one of each purpose. -/
theorem C5_witness :
    circuitLoop [sampleCircIntro, sampleCircRend] =
      ([introSnap sampleCircIntro], [rendSnap sampleCircRend],
       [Event.closeCircuit sampleCircIntro.cid,
        Event.closeCircuit sampleCircRend.cid]) :=
  (C5_circuit_collection []).2.2.2.2 sampleCircIntro sampleCircRend rfl rfl

/-- C6 counterexample: the claim "for any probe response body that contains
the substring `Powered by SecureDrop 2.5.0.` the checker sets
`version = "2.5.0"`" is false on the code: the greedy class `[0-9.]+`
extends past the period, so on the body `Powered by SecureDrop 2.5.0.5`
(which contains that substring) the recorded version is `"2.5.0."`. -/
theorem C6_counterexample :
    List.IsInfix "Powered by SecureDrop 2.5.0.".data
      "Powered by SecureDrop 2.5.0.5".data ∧
    envGreedy.probe = ProbeResult.success "Powered by SecureDrop 2.5.0.5" ∧
    (checkOne sampleInst envGreedy).1.version = some "2.5.0." ∧
    ("2.5.0." : String) ≠ "2.5.0" := by
  refine ⟨⟨[], ['5'], rfl⟩, rfl, ?_, by decide⟩
  decide

/-- C6 (amended): whenever the leftmost greedy match of
`Powered by SecureDrop [0-9.]+` in the response body is exactly
`Powered by SecureDrop 2.5.0.` — in particular for a body containing that
substring not followed by a further digit or dot at the first match — the
checker records `version = "2.5.0"`. -/
theorem C6_version_2_5_0 (inst : InstanceRecord) (env : Env) (body : String)
    (hp : env.probe = .success body)
    (hm : searchPattern body.data = some "Powered by SecureDrop 2.5.0.".data) :
    (checkOne inst env).1.version = some "2.5.0" := by
  have hv : parseVersion body = some "2.5.0" := by
    unfold parseVersion
    rw [hm]
    rfl
  rw [checkOne_probe_success inst env body hp, hv]
  exact (finishCircuits_fields { inst with version := some "2.5.0" } env []).1

/-- C6 witness: the canonical footer body. -/
theorem C6_witness : (checkOne sampleInst envExact).1.version = some "2.5.0" :=
  C6_version_2_5_0 sampleInst envExact "Powered by SecureDrop 2.5.0." rfl rfl

/-- C7: a successful probe whose body lacks the version pattern raises an
uncaught error at `.group(0)`: it propagates out of the loop, no further
per-instance step runs for that instance (its record is left exactly as it
was), all previously completed records keep the fields the pipeline gave
them, and later instances are untouched. -/
theorem C7_malformed_aborts (pre : List (InstanceRecord × Env))
    (inst : InstanceRecord) (env : Env) (body : String)
    (rest : List (InstanceRecord × Env))
    (hpre : (checkInstances pre).2.2 = none)
    (hp : env.probe = .success body)
    (hparse : parseVersion body = none) :
    checkInstances (pre ++ (inst, env) :: rest) =
      ((checkInstances pre).1 ++ inst :: rest.map Prod.fst,
       (checkInstances pre).2.1, some PyError.attributeError) := by
  induction pre with
  | nil =>
    simp only [List.nil_append]
    have h : checkOne inst env = (inst, [], some .attributeError) := by
      rw [checkOne_probe_success inst env body hp, hparse]
    rw [checkInstances_cons_err inst env rest _ _ _ h]
    rfl
  | cons p ps ih =>
    obtain ⟨i0, e0⟩ := p
    rcases he : (checkOne i0 e0).2.2 with _ | e
    · have hck : checkOne i0 e0 =
          ((checkOne i0 e0).1, (checkOne i0 e0).2.1, none) := by
        rw [← he]
      rw [checkInstances_cons_ok i0 e0 ps _ _ hck] at hpre
      rw [List.cons_append,
        checkInstances_cons_ok i0 e0 (ps ++ (inst, env) :: rest) _ _ hck,
        checkInstances_cons_ok i0 e0 ps _ _ hck, ih hpre]
      simp
    · have hck : checkOne i0 e0 =
          ((checkOne i0 e0).1, (checkOne i0 e0).2.1, some e) := by
        rw [← he]
      rw [checkInstances_cons_err i0 e0 ps _ _ _ hck] at hpre
      exact absurd hpre (by simp)

/-- C7 witness: one completed instance, then a malformed body, then one
untouched instance. -/
theorem C7_witness :
    checkInstances [(sampleInst, envOk), (sampleInst2, envMalformed),
        (sampleInst3, envOk)] =
      ((checkInstances [(sampleInst, envOk)]).1 ++ sampleInst2 :: [sampleInst3],
       (checkInstances [(sampleInst, envOk)]).2.1, some PyError.attributeError) :=
  C7_malformed_aborts [(sampleInst, envOk)] sampleInst2 envMalformed
    "<html>It works!</html>" [(sampleInst3, envOk)] (by decide) rfl (by decide)

/-- C8: `check_instances` only adds result fields: the output has one record
per input, in the same order, and every record keeps its `organization`,
`landing_page`, and `ths_address` (the spec's `service_address`) unchanged —
also on a run aborted by an uncaught per-instance error. -/
theorem C8_frame (ps : List (InstanceRecord × Env)) :
    (checkInstances ps).1.length = ps.length ∧
    ∀ i : Nat,
      ((checkInstances ps).1.getD i defaultInst).organization =
        ((ps.getD i defaultPair).1).organization ∧
      ((checkInstances ps).1.getD i defaultInst).landing_page =
        ((ps.getD i defaultPair).1).landing_page ∧
      ((checkInstances ps).1.getD i defaultInst).ths_address =
        ((ps.getD i defaultPair).1).ths_address := by
  induction ps with
  | nil => exact ⟨rfl, fun i => ⟨rfl, rfl, rfl⟩⟩
  | cons p rest ih =>
    obtain ⟨inst, env⟩ := p
    rcases he : (checkOne inst env).2.2 with _ | e
    · have hck : checkOne inst env =
          ((checkOne inst env).1, (checkOne inst env).2.1, none) := by
        rw [← he]
      rw [checkInstances_cons_ok inst env rest _ _ hck]
      refine ⟨?_, ?_⟩
      · simp only [List.length_cons]
        rw [ih.1]
      · intro i
        cases i with
        | zero =>
          simp only [List.getD_cons_zero]
          exact checkOne_static inst env
        | succ n =>
          simp only [List.getD_cons_succ]
          exact ih.2 n
    · have hck : checkOne inst env =
          ((checkOne inst env).1, (checkOne inst env).2.1, some e) := by
        rw [← he]
      rw [checkInstances_cons_err inst env rest _ _ _ hck]
      refine ⟨?_, ?_⟩
      · simp
      · intro i
        cases i with
        | zero =>
          simp only [List.getD_cons_zero]
          exact checkOne_static inst env
        | succ n =>
          simp only [List.getD_cons_succ]
          have hmap : (rest.map Prod.fst).getD n defaultInst =
              (rest.getD n defaultPair).1 :=
            List.getD_map rest defaultPair Prod.fst
          rw [hmap]
          exact ⟨rfl, rfl, rfl⟩

/-- C9: the checker closes every circuit returned by the live-circuit
enumeration; a circuit whose purpose is neither `HS_CLIENT_INTRO` nor
`HS_CLIENT_REND` is still closed while contributing no snapshot to either
sequence. -/
theorem C9_close_all (cs : List Circuit) (c : Circuit) (hc : c ∈ cs) :
    Event.closeCircuit c.cid ∈ (circuitLoop cs).2.2 ∧
    (c.purpose ≠ "HS_CLIENT_INTRO" → c.purpose ≠ "HS_CLIENT_REND" →
      circuitLoop [c] = ([], [], [Event.closeCircuit c.cid])) := by
  constructor
  · rw [circuitLoop_closes]
    exact List.mem_map_of_mem _ hc
  · intro h1 h2
    simp only [circuitLoop, if_neg h1, if_neg h2]
    rfl

/-- C9 witness: a concrete general-purpose circuit among the enumerated
set is closed and recorded nowhere. -/
theorem C9_witness :
    Event.closeCircuit sampleCircGeneral.cid ∈
      (circuitLoop [sampleCircIntro, sampleCircGeneral]).2.2 ∧
    circuitLoop [sampleCircGeneral] =
      ([], [], [Event.closeCircuit sampleCircGeneral.cid]) := by
  have h := C9_close_all [sampleCircIntro, sampleCircGeneral] sampleCircGeneral
    (by decide)
  exact ⟨h.1, h.2 (by decide) (by decide)⟩

/-- C10: the parser unconditionally strips the final character of the token
matched by `Powered by SecureDrop [0-9.]+`: when the body starts with the
literal followed by the digit-and-dot run `r` and then text that does not
extend the run, the recorded version is `r` minus its last character (so a
run not terminated by a period loses its final digit). -/
theorem C10_token_drop_last (inst : InstanceRecord) (env : Env)
    (r rest : List Char)
    (hp : env.probe = .success (String.mk (litP ++ r ++ rest)))
    (hr : r ≠ [])
    (hver : ∀ c ∈ r, isVerChar c = true)
    (hrest : ∀ c, rest.head? = some c → isVerChar c = false) :
    (checkOne inst env).1.version = some (String.mk r.dropLast) := by
  have hdata : (String.mk (litP ++ r ++ rest)).data = litP ++ (r ++ rest) := by
    show litP ++ r ++ rest = litP ++ (r ++ rest)
    exact List.append_assoc litP r rest
  have htake : takeVerRun (r ++ rest) = r := takeVerRun_exact r rest hver hrest
  have hx : takeVerRun (r ++ rest) ≠ [] := by
    rw [htake]
    exact hr
  have hsearch : searchPattern (litP ++ (r ++ rest)) = some (litP ++ r) := by
    rw [searchPattern_at_lit (r ++ rest) hx, htake]
  have hparse : parseVersion (String.mk (litP ++ r ++ rest)) =
      some (String.mk r.dropLast) := by
    unfold parseVersion
    rw [hdata, hsearch]
    show some (String.mk (lastTokenDropLast (litP ++ r))) = some (String.mk r.dropLast)
    rw [lastTokenDropLast_lit r hr (fun c hcc => isVerChar_not_ws (hver c hcc))]
  rw [checkOne_probe_success inst env _ hp, hparse]
  exact (finishCircuits_fields { inst with version := some (String.mk r.dropLast) }
    env []).1

/-- C10 witness: body "Powered by SecureDrop 2.5.0!" — the run "2.5.0" is
not terminated by a period, so the recorded version is "2.5.". -/
theorem C10_witness : (checkOne sampleInst envBang).1.version = some "2.5." := by
  have h := C10_token_drop_last sampleInst envBang "2.5.0".data "!".data rfl
    (by decide) (by decide) (by decide)
  exact h

end SDRM
